import Mathlib

/-!
Verification development for the rpm DAO of content-sources-backend
(`pkg/dao/rpm.go`).

The database state is embedded shallowly: each table is a list of rows,
row uuids are natural numbers handed out by a `nextId` counter (gorm
generates uuids in a `BeforeCreate` hook), and every gorm query used by
the source is translated to the corresponding pure list operation:

* `Create` with `ON CONFLICT ... DO NOTHING` inserts each row of the
  slice whose conflict key is not yet present (Postgres skips the
  conflicting rows, including rows conflicting with an earlier row of
  the same statement);
* `Create` of an empty slice fails with gorm's `ErrEmptySlice`
  ("empty slice found");
* `Where ... Pluck` filters the table in scan (list) order and projects
  one column;
* `Delete` with a predicate removes the matching rows;
* `First` returns the first match or `ErrRecordNotFound`.

Store-level failures of the chunked insert are modelled by an oracle
`fail : Nat -> Option String` giving the error, if any, with which the
insert of chunk `k` fails; the other queries of the happy path are
infallible in the model, matching runs in which the store itself does
not fail.
-/

set_option autoImplicit false

/-- A row of the `rpms` table (`models.Rpm`). -/
structure Rpm where
  uuid : Nat
  name : String
  arch : String
  version : String
  release : String
  epoch : Int
  checksum : String
  summary : String
  deriving DecidableEq, Repr

/-- A row of the `repositories` table (`models.Repository`). -/
structure Repository where
  uuid : Nat
  url : String
  public : Bool
  deriving DecidableEq, Repr

/-- A row of the `repositories_rpms` association table (`models.RepositoryRpm`). -/
structure RepositoryRpm where
  repositoryUUID : Nat
  rpmUUID : Nat
  deriving DecidableEq, Repr

/-- A row of the `repository_configurations` table (`models.RepositoryConfiguration`). -/
structure RepositoryConfiguration where
  uuid : Nat
  orgID : String
  repositoryUUID : Nat
  deriving DecidableEq, Repr

/-- `yum.Package.Checksum` (only the `Value` field is read by the source). -/
structure YumChecksum where
  value : String
  deriving DecidableEq, Repr

/-- `yum.Version`. -/
structure YumVersion where
  version : String
  release : String
  epoch : Int
  deriving DecidableEq, Repr

/-- `yum.Package`, the manifest entry type consumed by `InsertForRepository`. -/
structure YumPackage where
  name : String
  arch : String
  version : YumVersion
  checksum : YumChecksum
  summary : String
  deriving DecidableEq, Repr

/-- The database state seen by the DAO. -/
structure DB where
  rpms : List Rpm
  repositories : List Repository
  repositoriesRpms : List RepositoryRpm
  repositoryConfigurations : List RepositoryConfiguration
  nextId : Nat
  deriving DecidableEq, Repr

/-- Errors surfaced by the DAO methods. -/
inductive DbErr where
  /-- gorm `ErrRecordNotFound`, from `First` without a match. -/
  | notFound
  /-- gorm `ErrEmptySlice` ("empty slice found"), from `Create` of an empty slice. -/
  | emptySlice
  /-- `fmt.Errorf("repositoryConfigUUID = %s is not owned")`. -/
  | notOwned (repositoryConfigUUID : Nat)
  /-- `fmt.Errorf` argument-validation errors. -/
  | invalidArg (msg : String)
  /-- a store failure injected by the chunk-failure oracle. -/
  | chunkErr (msg : String)
  /-- `fmt.Errorf("...: %w", err)` wrapping. -/
  | wrapped (ctx : String) (e : DbErr)
  deriving DecidableEq, Repr

/-- `api.RepositoryRpm`. -/
structure ApiRepositoryRpm where
  uuid : Nat
  name : String
  arch : String
  version : String
  release : String
  epoch : Int
  summary : String
  checksum : String
  deriving DecidableEq, Repr

/-- `api.ResponseMetadata`. -/
structure ResponseMetadata where
  count : Int
  limit : Int
  offset : Int
  deriving DecidableEq, Repr

/-- `api.RepositoryRpmCollectionResponse`. -/
structure RepositoryRpmCollectionResponse where
  data : List ApiRepositoryRpm
  meta : ResponseMetadata
  deriving DecidableEq, Repr

/-- `api.SearchRpmRequest`. -/
structure SearchRpmRequest where
  urls : List String
  search : String
  deriving DecidableEq, Repr

/-- `api.SearchRpmResponse`. -/
structure SearchRpmResponse where
  packageName : String
  summary : String
  deriving DecidableEq, Repr

deriving instance DecidableEq for Except

/-- `RpmDaoOptions` (a `nil` pointer field is `none`). -/
structure RpmDaoOptions where
  pagedRpmInsertsLimit : Option Int
  deriving DecidableEq, Repr

/-- Modelled from the spec: `config.DefaultPagedRpmInsertsLimit`, the fixed
default batch chunk size defined in the configuration package, which is not
among the sources here; the spec describes the tunable as a positive integer
whose non-positive or absent values fall back to a fixed default. -/
def DefaultPagedRpmInsertsLimit : Int := 500

/-- `GetRpmDao`: resolve the `pagedRpmInsertsLimit` option. `configValue`
stands for `config.Get().Options.PagedRpmInsertsLimit` (read when the
option pointer is absent). The returned value is the `pagedRpmInsertsLimit`
field of the constructed DAO. -/
def GetRpmDao (options : Option RpmDaoOptions) (configValue : Int) : Int :=
  let pagedRpmInsertsLimit : Int := DefaultPagedRpmInsertsLimit
  let value : Int :=
    match options with
    | some o =>
      match o.pagedRpmInsertsLimit with
      | some v => v
      | none => configValue
    | none => configValue
  if value > 0 then value else pagedRpmInsertsLimit

/-- Does a row with the given checksum exist (the `ON CONFLICT (checksum)`
test, and the `WHERE checksum IN` membership test for one value)? -/
def checksumExists (rows : List Rpm) (c : String) : Bool :=
  rows.any (fun q => q.checksum == c)

/-- Result of one gorm `Create` of rpm rows. -/
structure CreateResult where
  rowsAffected : Nat
  rows : List Rpm
  nextId : Nat
  deriving DecidableEq, Repr

/-- gorm `Create` with `ON CONFLICT (checksum) DO NOTHING` of a slice of rpm
rows: each row is inserted, with a generated uuid, unless its checksum is
already present; `rowsAffected` counts the inserted rows. -/
def createRpms (rows : List Rpm) (nextId : Nat) : List Rpm → CreateResult
  | [] => ⟨0, rows, nextId⟩
  | p :: rest =>
    if checksumExists rows p.checksum then
      createRpms rows nextId rest
    else
      let r := createRpms (rows ++ [{ p with uuid := nextId }]) (nextId + 1) rest
      ⟨r.rowsAffected + 1, r.rows, r.nextId⟩

/-- Result of `PagedRpmInsert`. -/
structure PagedInsertResult where
  rowsAffected : Nat
  rows : List Rpm
  nextId : Nat
  err : Option DbErr
  deriving DecidableEq, Repr

/-- The loop of `PagedRpmInsert` (`for i := 0; i < len(*pkgs); i += chunk`),
phrased on the not-yet-processed suffix: each iteration creates the rows
`(*pkgs)[i:end]`, i.e. `rest.take chunk`, and continues on `rest.drop chunk`.
`k` is the index of the current chunk, consulted by the failure oracle; on a
failure the accumulated count and the error are returned at once. The `fuel`
argument starts at the length of the package list, which bounds the number of
iterations whenever `chunk > 0` (`GetRpmDao` guarantees a positive chunk
size); the fuel-exhaustion branch is unreachable then. -/
def pagedGo (chunk : Nat) (fail : Nat → Option String) :
    Nat → Nat → List Rpm → List Rpm → Nat → Nat → PagedInsertResult
  | 0, _, _, rows, nid, count => ⟨count, rows, nid, none⟩
  | fuel + 1, k, rest, rows, nid, count =>
    if rest.isEmpty then ⟨count, rows, nid, none⟩
    else
      match fail k with
      | some e => ⟨count, rows, nid, some (.chunkErr e)⟩
      | none =>
        let r := createRpms rows nid (rest.take chunk)
        pagedGo chunk fail fuel (k + 1) (rest.drop chunk) r.rows r.nextId
          (count + r.rowsAffected)

/-- `PagedRpmInsert`: insert the packages in chunks of `chunk`
(= `r.pagedRpmInsertsLimit`), ignoring checksum conflicts, aborting on the
first failing chunk. Returns the summed `RowsAffected` of the completed
chunks. -/
def PagedRpmInsert (chunk : Nat) (fail : Nat → Option String)
    (rows : List Rpm) (nextId : Nat) (pkgs : List Rpm) : PagedInsertResult :=
  if pkgs.length = 0 then ⟨0, rows, nextId, none⟩
  else pagedGo chunk fail pkgs.length 0 pkgs rows nextId 0

/-- The all-chunks-succeed failure oracle. -/
def noFail : Nat → Option String := fun _ => none

/-- `stringInSlice`. -/
def stringInSlice (a : String) (list : List String) : Bool :=
  list.any (fun b => b == a)

/-- The `models.Rpm` built by `FilteredConvert` from one `yum.Package`
(uuid is the zero value; gorm generates it at insert time). -/
def rpmFromYum (yumPkg : YumPackage) : Rpm :=
  { uuid := 0
    name := yumPkg.name
    arch := yumPkg.arch
    version := yumPkg.version.version
    release := yumPkg.version.release
    epoch := yumPkg.version.epoch
    checksum := yumPkg.checksum.value
    summary := yumPkg.summary }

/-- `FilteredConvert`: convert the yum packages whose checksum is not in
`excludeChecksums`. -/
def FilteredConvert (yumPkgs : List YumPackage) (excludeChecksums : List String) :
    List Rpm :=
  (yumPkgs.filter (fun yumPkg => !stringInSlice yumPkg.checksum.value excludeChecksums)).map
    rpmFromYum

/-- `fetchRepo`: `First` on the `repositories` table by uuid. -/
def fetchRepo (db : DB) (uuid : Nat) : Except DbErr Repository :=
  match db.repositories.find? (fun r => r.uuid == uuid) with
  | some r => .ok r
  | none => .error .notFound

/-- `prepRepositoryRpms`: one association row per rpm uuid. -/
def prepRepositoryRpms (repo : Repository) (rpm_uuids : List Nat) :
    List RepositoryRpm :=
  rpm_uuids.map (fun u => { repositoryUUID := repo.uuid, rpmUUID := u })

/-- `difference`: the elements of `a` not in `b` (`a - b`), in order. -/
def difference (a b : List Nat) : List Nat :=
  a.filter (fun x => !b.contains x)

/-- `Where("checksum in (?)", checksums).Pluck("checksum")` on `rpms`. -/
def pluckExistingChecksums (rows : List Rpm) (checksums : List String) :
    List String :=
  (rows.filter (fun r => checksums.contains r.checksum)).map (fun r => r.checksum)

/-- `Where("checksum in (?)", checksums).Pluck("uuid")` on `rpms`. -/
def pluckRpmUuids (rows : List Rpm) (checksums : List String) : List Nat :=
  (rows.filter (fun r => checksums.contains r.checksum)).map (fun r => r.uuid)

/-- The `existing_rpm_uuids` local of `deleteUnneeded`:
`Where("repository_uuid = ?").Pluck("rpm_uuid")`. -/
def existingRpmUuids (db : DB) (repo : Repository) : List Nat :=
  (db.repositoriesRpms.filter (fun m => m.repositoryUUID == repo.uuid)).map
    (fun m => m.rpmUUID)

/-- The `rpmsToDelete` local of `deleteUnneeded`. -/
def rpmsToDelete (db : DB) (repo : Repository) (rpm_uuids : List Nat) : List Nat :=
  difference (existingRpmUuids db repo) rpm_uuids

/-- The association table after the `Delete` of `deleteUnneeded` (drop the
repository's rows whose rpm is in `rpmsToDelete`). -/
def remainingAssocs (db : DB) (repo : Repository) (rpm_uuids : List Nat) :
    List RepositoryRpm :=
  db.repositoriesRpms.filter
    (fun m =>
      !(m.repositoryUUID == repo.uuid &&
        (rpmsToDelete db repo rpm_uuids).contains m.rpmUUID))

/-- The `dangling_rpm_uuids` local of `deleteUnneeded`: among the rpms of
`rpmsToDelete`, those no association row references after the delete
(`left join ... where repositories_rpms is NULL`). -/
def danglingRpmUuids (db : DB) (repo : Repository) (rpm_uuids : List Nat) :
    List Nat :=
  (db.rpms.filter
      (fun r =>
        (rpmsToDelete db repo rpm_uuids).contains r.uuid &&
          !(remainingAssocs db repo rpm_uuids).any (fun m => m.rpmUUID == r.uuid))).map
    (fun r => r.uuid)

/-- `deleteUnneeded`: remove the repository's association rows whose rpm is
not in `rpm_uuids`, then delete the rpm rows among those removed that no
association row references any more.  The store operations of this method
are infallible in the model, so the source's error returns have no
counterpart. -/
def deleteUnneeded (db : DB) (repo : Repository) (rpm_uuids : List Nat) : DB :=
  if (danglingRpmUuids db repo rpm_uuids).length = 0 then
    { db with repositoriesRpms := remainingAssocs db repo rpm_uuids }
  else
    { db with
      repositoriesRpms := remainingAssocs db repo rpm_uuids
      rpms :=
        db.rpms.filter
          (fun r => !(danglingRpmUuids db repo rpm_uuids).contains r.uuid) }

/-- gorm `Create` with `ON CONFLICT (repository_uuid, rpm_uuid) DO NOTHING`
of association rows (for a nonempty slice). -/
def createRepositoryRpms (rows : List RepositoryRpm) :
    List RepositoryRpm → List RepositoryRpm
  | [] => rows
  | a :: rest =>
    if rows.any (fun m => m.repositoryUUID == a.repositoryUUID && m.rpmUUID == a.rpmUUID) then
      createRepositoryRpms rows rest
    else
      createRepositoryRpms (rows ++ [a]) rest

/-- Result of `InsertForRepository`. -/
structure ReconcileResult where
  newRpms : Nat
  db : DB
  err : Option DbErr
  deriving DecidableEq, Repr

/-- `InsertForRepository`: reconcile a repository's packages against a
manifest. Fetch the repository, find which manifest checksums already
exist, insert the missing packages in pages, resolve all manifest
checksums to rpm uuids, drop stale associations (and now-dangling rpms),
and create the needed associations with `ON CONFLICT DO NOTHING`.  gorm's
`Create` of the empty association slice fails with `ErrEmptySlice`. -/
def InsertForRepository (chunk : Nat) (fail : Nat → Option String) (db : DB)
    (repoUuid : Nat) (pkgs : List YumPackage) : ReconcileResult :=
  match fetchRepo db repoUuid with
  | .error e => ⟨0, db, some (.wrapped ("failed to fetchRepo") e)⟩
  | .ok repo =>
    let checksums := pkgs.map (fun p => p.checksum.value)
    let existingChecksums := pluckExistingChecksums db.rpms checksums
    let dbPkgs := FilteredConvert pkgs existingChecksums
    let ins := PagedRpmInsert chunk fail db.rpms db.nextId dbPkgs
    match ins.err with
    | some e =>
      ⟨ins.rowsAffected, { db with rpms := ins.rows, nextId := ins.nextId },
        some (.wrapped ("failed to PagedRpmInsert") e)⟩
    | none =>
      let db1 : DB := { db with rpms := ins.rows, nextId := ins.nextId }
      let rpmUuids := pluckRpmUuids db1.rpms checksums
      let db2 := deleteUnneeded db1 repo rpmUuids
      let associations := prepRepositoryRpms repo rpmUuids
      if associations.length = 0 then
        ⟨ins.rowsAffected, db2, some (.wrapped ("failed to Create") .emptySlice)⟩
      else
        ⟨ins.rowsAffected,
          { db2 with
            repositoriesRpms := createRepositoryRpms db2.repositoriesRpms associations },
          none⟩

/-- `isOwnedRepository`: does a configuration row with this org and uuid
exist? -/
def isOwnedRepository (db : DB) (orgID : String) (repositoryConfigUUID : Nat) :
    Bool :=
  db.repositoryConfigurations.any
    (fun c => c.orgID == orgID && c.uuid == repositoryConfigUUID)

/-- `modelToApiFields`. -/
def modelToApiFields (inRpm : Rpm) : ApiRepositoryRpm :=
  { uuid := inRpm.uuid
    name := inRpm.name
    arch := inRpm.arch
    version := inRpm.version
    release := inRpm.release
    epoch := inRpm.epoch
    summary := inRpm.summary
    checksum := inRpm.checksum }

/-- `RepositoryRpmListFromModelToResponse`. -/
def RepositoryRpmListFromModelToResponse (repoRpm : List Rpm) :
    List ApiRepositoryRpm :=
  repoRpm.map modelToApiFields

/-- `List`: paginated listing of a repository configuration's packages.
The empty collection response is the Go zero value.  A negative `limit`
cancels the gorm `LIMIT` clause and a negative `offset` the `OFFSET`
clause; `Count` runs before the window is applied. -/
def Dao.List (db : DB) (orgID : String) (repositoryConfigUUID : Nat)
    (limit offset : Int) : RepositoryRpmCollectionResponse × Int × Option DbErr :=
  if orgID = "" then
    (⟨[], ⟨0, 0, 0⟩⟩, 0, some (.invalidArg ("orgID can not be an empty string")))
  else if isOwnedRepository db orgID repositoryConfigUUID = false then
    (⟨[], ⟨0, 0, 0⟩⟩, 0, some (.notOwned repositoryConfigUUID))
  else
    let repositoryUUID :=
      match db.repositoryConfigurations.find? (fun c => c.uuid == repositoryConfigUUID) with
      | some c => c.repositoryUUID
      | none => 0
    let repoRpms :=
      db.rpms.filter
        (fun r =>
          db.repositoriesRpms.any
            (fun m => m.rpmUUID == r.uuid && m.repositoryUUID == repositoryUUID))
    let totalRpms : Int := repoRpms.length
    let windowed := repoRpms.drop offset.toNat
    let page := if limit < 0 then windowed else windowed.take limit.toNat
    (⟨RepositoryRpmListFromModelToResponse page, ⟨totalRpms, limit, offset⟩⟩,
      totalRpms, none)

/-- The candidate URL list of `Search`: each request URL followed by the
same URL with a trailing slash appended (the FIXME 103 workaround). -/
def searchUrls : List String → List String
  | [] => []
  | url :: rest => url :: (url ++ "/") :: searchUrls rest

/-- The `rpms.name LIKE '<search>%'` test: the name starts with the
search term (compared character by character). -/
def likeStartsWith (search : String) (name : String) : Bool :=
  name.data.take search.data.length == search.data

/-- The `WHERE` clause of the `Search` query, for one rpm row: some
association joins it to a repository whose url is among the candidates and
which is public or belongs to a configuration of the caller's organization
(the `left join repository_configurations` plus
`(repository_configurations.org_id = ? OR repositories.public)`). -/
def searchEligible (db : DB) (orgID : String) (urls : List String)
    (search : String) (r : Rpm) : Bool :=
  likeStartsWith search r.name &&
    db.repositoriesRpms.any
      (fun m =>
        m.rpmUUID == r.uuid &&
          db.repositories.any
            (fun rep =>
              rep.uuid == m.repositoryUUID &&
                (rep.public ||
                  db.repositoryConfigurations.any
                    (fun c => c.repositoryUUID == rep.uuid && c.orgID == orgID)) &&
                urls.contains rep.url))

/-- Strict lexicographic order on character lists (the text order used by
`ORDER BY rpms.name ASC`), compared code point by code point. -/
def charListLt : List Char → List Char → Bool
  | [], [] => false
  | [], _ :: _ => true
  | _ :: _, [] => false
  | a :: as, b :: bs =>
    if a.toNat < b.toNat then true
    else if b.toNat < a.toNat then false
    else charListLt as bs

/-- `ORDER BY` comparison of two names. -/
def nameLt (a b : String) : Bool :=
  charListLt a.data b.data

/-- Stable insertion of a row into a name-sorted list (rows with an equal
name keep their scan order, as the query orders by `rpms.name` only). -/
def insertByName (r : Rpm) : List Rpm → List Rpm
  | [] => [r]
  | q :: rest =>
    if nameLt q.name r.name then q :: insertByName r rest else r :: q :: rest

/-- `ORDER BY rpms.name ASC` as a stable sort. -/
def sortByName : List Rpm → List Rpm
  | [] => []
  | r :: rest => insertByName r (sortByName rest)

/-- `DISTINCT ON (rpms.name)`: keep the first row of each name group.  The
query orders by name only, so Postgres does not fix which row of a group
comes first; the model uses the scan (table) order, which the stable sort
preserves. -/
def distinctOnName (seen : List String) : List Rpm → List Rpm
  | [] => []
  | r :: rest =>
    if seen.contains r.name then distinctOnName seen rest
    else r :: distinctOnName (r.name :: seen) rest

/-- `Search`: name-prefix search across the repositories with one of the
given URLs (trailing-slash tolerant via `searchUrls`), visible to the
organization, one row per package name, ordered by name, capped at
`limit`. -/
def Search (db : DB) (orgID : String) (request : SearchRpmRequest)
    (limit : Nat) : Except DbErr (List SearchRpmResponse) :=
  if orgID = "" then
    .error (.invalidArg ("orgID can not be an empty string"))
  else if request.urls.length = 0 then
    .error (.invalidArg ("request.URLs must contain at least 1 URL"))
  else
    let urls := searchUrls request.urls
    let matching :=
      db.rpms.filter (searchEligible db orgID urls request.search)
    let deduped := distinctOnName [] (sortByName matching)
    .ok
      ((deduped.take limit).map
        (fun r => { packageName := r.name, summary := r.summary }))

/-! ## Lemmas about the package store -/

theorem createRpms_append (l1 l2 : List Rpm) (rows : List Rpm) (nid : Nat) :
    createRpms rows nid (l1 ++ l2) =
      ⟨(createRpms rows nid l1).rowsAffected +
          (createRpms (createRpms rows nid l1).rows (createRpms rows nid l1).nextId l2).rowsAffected,
        (createRpms (createRpms rows nid l1).rows (createRpms rows nid l1).nextId l2).rows,
        (createRpms (createRpms rows nid l1).rows (createRpms rows nid l1).nextId l2).nextId⟩ := by
  induction l1 generalizing rows nid with
  | nil => simp [createRpms]
  | cons p rest ih =>
    by_cases h : checksumExists rows p.checksum
    · simp [createRpms, h, ih]
    · simp only [List.cons_append, createRpms, h, Bool.false_eq_true, if_false,
        List.append_eq]
      rw [ih]
      simp only [CreateResult.mk.injEq, and_true, true_and]
      omega

theorem pagedGo_noFail (chunk : Nat) (hc : 0 < chunk) (fail : Nat → Option String)
    (hfail : ∀ j, fail j = none) :
    ∀ (fuel k : Nat) (rest rows : List Rpm) (nid count : Nat),
      rest.length ≤ fuel →
      pagedGo chunk fail fuel k rest rows nid count =
        ⟨count + (createRpms rows nid rest).rowsAffected,
          (createRpms rows nid rest).rows, (createRpms rows nid rest).nextId, none⟩ := by
  intro fuel
  induction fuel with
  | zero =>
    intro k rest rows nid count hlen
    have hnil : rest = [] := List.length_eq_zero.mp (Nat.le_zero.mp hlen)
    subst hnil
    simp [pagedGo, createRpms]
  | succ fuel ih =>
    intro k rest rows nid count hlen
    match rest with
    | [] => simp [pagedGo, createRpms]
    | p :: rest' =>
      rw [show pagedGo chunk fail (fuel + 1) k (p :: rest') rows nid count =
          pagedGo chunk fail fuel (k + 1) ((p :: rest').drop chunk)
            (createRpms rows nid ((p :: rest').take chunk)).rows
            (createRpms rows nid ((p :: rest').take chunk)).nextId
            (count + (createRpms rows nid ((p :: rest').take chunk)).rowsAffected)
          from by simp [pagedGo, hfail k]]
      rw [ih (k + 1) _ _ _ _
          (by
            rw [List.length_drop]
            simp only [List.length_cons] at hlen ⊢
            omega)]
      conv_rhs => rw [← List.take_append_drop chunk (p :: rest'), createRpms_append]
      simp only [PagedInsertResult.mk.injEq, and_true, true_and]
      omega

theorem PagedRpmInsert_noFail (chunk : Nat) (hc : 0 < chunk) (rows : List Rpm)
    (nid : Nat) (pkgs : List Rpm) :
    PagedRpmInsert chunk noFail rows nid pkgs =
      ⟨(createRpms rows nid pkgs).rowsAffected, (createRpms rows nid pkgs).rows,
        (createRpms rows nid pkgs).nextId, none⟩ := by
  unfold PagedRpmInsert
  by_cases h : pkgs.length = 0
  · have hnil : pkgs = [] := List.length_eq_zero.mp h
    subst hnil
    simp [createRpms]
  · rw [if_neg h, pagedGo_noFail chunk hc noFail (fun _ => rfl) _ 0 _ _ _ _ (le_refl _)]
    simp

theorem checksumExists_append (l1 l2 : List Rpm) (c : String) :
    checksumExists (l1 ++ l2) c = (checksumExists l1 c || checksumExists l2 c) := by
  simp [checksumExists, List.any_append]

theorem createRpms_count_aux (pkgs : List Rpm) :
    ∀ (rows extra : List Rpm) (nid : Nat),
      (pkgs.map (fun p => p.checksum)).Nodup →
      (∀ p ∈ pkgs, checksumExists extra p.checksum = false) →
      (createRpms (rows ++ extra) nid pkgs).rowsAffected =
        (pkgs.filter (fun p => !checksumExists rows p.checksum)).length := by
  induction pkgs with
  | nil => intro rows extra nid _ _; simp [createRpms]
  | cons p rest ih =>
    intro rows extra nid hnodup hextra
    have hext : checksumExists extra p.checksum = false := hextra p (by simp)
    have hsplit : checksumExists (rows ++ extra) p.checksum =
        checksumExists rows p.checksum := by
      rw [checksumExists_append, hext, Bool.or_false]
    have hnodup' : (rest.map (fun q => q.checksum)).Nodup :=
      (List.nodup_cons.mp (by simpa using hnodup)).2
    have hnotin : p.checksum ∉ rest.map (fun q => q.checksum) :=
      (List.nodup_cons.mp (by simpa using hnodup)).1
    by_cases h : checksumExists rows p.checksum
    · simp only [createRpms, hsplit, h, if_true]
      rw [ih rows extra nid hnodup' (fun q hq => hextra q (by simp [hq]))]
      simp [List.filter_cons, h]
    · simp only [createRpms, hsplit, h, Bool.false_eq_true, if_false]
      rw [show rows ++ extra ++ [{ p with uuid := nid }] =
          rows ++ (extra ++ [{ p with uuid := nid }]) from List.append_assoc _ _ _]
      have hside : ∀ q ∈ rest,
          checksumExists (extra ++ [{ p with uuid := nid }]) q.checksum = false := by
        intro q hq
        rw [checksumExists_append, hextra q (by simp [hq]), Bool.false_or]
        simp only [checksumExists, List.any_cons, List.any_nil, Bool.or_false]
        have hne : p.checksum ≠ q.checksum := fun hcontra =>
          hnotin (hcontra ▸ List.mem_map_of_mem (fun q => q.checksum) hq)
        simpa using hne
      have hih := ih rows (extra ++ [{ p with uuid := nid }]) (nid + 1) hnodup' hside
      rw [hih]
      simp [List.filter_cons, h]

/-- Claim C2: on candidates with pairwise-distinct checksums of which `M`
already exist in the store, `PagedRpmInsert` returns `N - M`; and any two
positive chunk sizes produce identical results (count, rows and uuid
counter). -/
theorem PagedRpmInsert_batch_correct (chunk chunk' : Nat) (rows : List Rpm)
    (nid : Nat) (pkgs : List Rpm) (hc : 0 < chunk) (hc' : 0 < chunk')
    (hnodup : (pkgs.map (fun p => p.checksum)).Nodup) :
    (PagedRpmInsert chunk noFail rows nid pkgs).rowsAffected =
        pkgs.length - (pkgs.filter (fun p => checksumExists rows p.checksum)).length ∧
      PagedRpmInsert chunk noFail rows nid pkgs =
        PagedRpmInsert chunk' noFail rows nid pkgs := by
  constructor
  · rw [PagedRpmInsert_noFail chunk hc]
    have hcount := createRpms_count_aux pkgs rows [] nid hnodup
      (fun p _ => by simp [checksumExists])
    rw [List.append_nil] at hcount
    have hsum : pkgs.length =
        (pkgs.filter (fun p => checksumExists rows p.checksum)).length +
          (pkgs.filter (fun p => !checksumExists rows p.checksum)).length :=
      List.length_eq_length_filter_add _
    simp only [hcount]
    omega
  · rw [PagedRpmInsert_noFail chunk hc, PagedRpmInsert_noFail chunk' hc']

/-- Witness for C2 at a concrete input: two distinct-checksum candidates,
one already stored, chunk sizes 1 and 3. -/
theorem PagedRpmInsert_batch_correct_witness :
    (0 : Nat) < 1 ∧ (0 : Nat) < 3 ∧
      (([⟨0, ("a"), ("x"), ("1"), ("1"), 0, ("ck1"), ("s")⟩,
          ⟨0, ("b"), ("x"), ("1"), ("1"), 0, ("ck2"), ("s")⟩] :
            List Rpm).map (fun p => p.checksum)).Nodup ∧
      ((PagedRpmInsert 1 noFail
            [⟨7, ("a0"), ("x"), ("1"), ("1"), 0, ("ck1"), ("s")⟩] 8
            [⟨0, ("a"), ("x"), ("1"), ("1"), 0, ("ck1"), ("s")⟩,
              ⟨0, ("b"), ("x"), ("1"), ("1"), 0, ("ck2"), ("s")⟩]).rowsAffected =
          2 - ((([⟨0, ("a"), ("x"), ("1"), ("1"), 0, ("ck1"), ("s")⟩,
              ⟨0, ("b"), ("x"), ("1"), ("1"), 0, ("ck2"), ("s")⟩] :
                List Rpm).filter
              (fun p =>
                checksumExists [⟨7, ("a0"), ("x"), ("1"), ("1"), 0, ("ck1"), ("s")⟩]
                  p.checksum)).length) ∧
        PagedRpmInsert 1 noFail
            [⟨7, ("a0"), ("x"), ("1"), ("1"), 0, ("ck1"), ("s")⟩] 8
            [⟨0, ("a"), ("x"), ("1"), ("1"), 0, ("ck1"), ("s")⟩,
              ⟨0, ("b"), ("x"), ("1"), ("1"), 0, ("ck2"), ("s")⟩] =
          PagedRpmInsert 3 noFail
            [⟨7, ("a0"), ("x"), ("1"), ("1"), 0, ("ck1"), ("s")⟩] 8
            [⟨0, ("a"), ("x"), ("1"), ("1"), 0, ("ck1"), ("s")⟩,
              ⟨0, ("b"), ("x"), ("1"), ("1"), 0, ("ck2"), ("s")⟩]) :=
  ⟨by decide, by decide, by decide,
    PagedRpmInsert_batch_correct 1 3 _ 8 _ (by decide) (by decide) (by decide)⟩

/-- Claim C9: `PagedRpmInsert` on an empty input returns count `0` and no
error, and issues no write (rows and uuid counter unchanged). -/
theorem PagedRpmInsert_empty (chunk : Nat) (fail : Nat → Option String)
    (rows : List Rpm) (nid : Nat) :
    PagedRpmInsert chunk fail rows nid [] = ⟨0, rows, nid, none⟩ := by
  simp [PagedRpmInsert]

theorem pagedGo_fail (chunk : Nat) (fail : Nat → Option String) (e : String)
    (hc : 0 < chunk) :
    ∀ (k0 fuel k : Nat) (rest rows : List Rpm) (nid count : Nat),
      (∀ j, j < k0 → fail (k + j) = none) →
      fail (k + k0) = some e →
      chunk * k0 < rest.length →
      rest.length ≤ fuel →
      pagedGo chunk fail fuel k rest rows nid count =
        ⟨count + (createRpms rows nid (rest.take (chunk * k0))).rowsAffected,
          (createRpms rows nid (rest.take (chunk * k0))).rows,
          (createRpms rows nid (rest.take (chunk * k0))).nextId,
          some (.chunkErr e)⟩ := by
  intro k0
  induction k0 with
  | zero =>
    intro fuel k rest rows nid count _ hfailk hlt hfuel
    cases rest with
    | nil => simp at hlt
    | cons p rest' =>
      cases fuel with
      | zero => simp at hfuel
      | succ fuel =>
        simp only [pagedGo, List.isEmpty_cons, Bool.false_eq_true, if_false]
        rw [show fail k = some e from hfailk]
        simp [createRpms]
  | succ k0' ih =>
    intro fuel k rest rows nid count hbefore hfailk hlt hfuel
    cases rest with
    | nil => simp at hlt
    | cons p rest' =>
      cases fuel with
      | zero => simp at hfuel
      | succ fuel =>
        have hk0 : fail k = none := by
          have h2 := hbefore 0 (Nat.succ_pos k0')
          simpa using h2
        simp only [pagedGo, List.isEmpty_cons, Bool.false_eq_true, if_false, hk0]
        rw [ih fuel (k + 1) ((p :: rest').drop chunk) _ _ _
            (fun j hj => by
              have h2 := hbefore (j + 1) (by omega)
              rwa [show k + (j + 1) = k + 1 + j from by omega] at h2)
            (by rwa [show k + 1 + k0' = k + (k0' + 1) from by omega])
            (by
              rw [List.length_drop]
              rw [Nat.mul_succ] at hlt
              simp only [List.length_cons] at hlt ⊢
              omega)
            (by
              rw [List.length_drop]
              simp only [List.length_cons] at hfuel ⊢
              omega)]
        conv_rhs =>
          rw [show chunk * (k0' + 1) = chunk + chunk * k0' from by
              rw [Nat.mul_succ]; omega,
            List.take_add, createRpms_append]
        simp only [PagedInsertResult.mk.injEq, and_true, true_and]
        omega

/-- Claim C8: if the chunks before `k` succeed and the insert of (nonempty)
chunk `k` fails with error `e`, `PagedRpmInsert` stops there: it returns the
rows and the summed count of the `k` completed chunks (the first
`chunk * k` packages) together with the error. -/
theorem PagedRpmInsert_chunk_failure (chunk : Nat) (fail : Nat → Option String)
    (rows : List Rpm) (nid : Nat) (pkgs : List Rpm) (k : Nat) (e : String)
    (hc : 0 < chunk) (hbefore : ∀ j, j < k → fail j = none)
    (hk : fail k = some e) (hlt : chunk * k < pkgs.length) :
    PagedRpmInsert chunk fail rows nid pkgs =
      ⟨(createRpms rows nid (pkgs.take (chunk * k))).rowsAffected,
        (createRpms rows nid (pkgs.take (chunk * k))).rows,
        (createRpms rows nid (pkgs.take (chunk * k))).nextId,
        some (.chunkErr e)⟩ := by
  unfold PagedRpmInsert
  rw [if_neg (by omega)]
  rw [pagedGo_fail chunk fail e hc k pkgs.length 0 pkgs rows nid 0
      (fun j hj => by simpa using hbefore j hj)
      (by simpa using hk) hlt (le_refl _)]
  simp

/-- Witness for C8: chunk size 1, the oracle failing at chunk 1, two
candidate packages. -/
theorem PagedRpmInsert_chunk_failure_witness :
    (0 : Nat) < 1 ∧
      (∀ j, j < 1 → (fun n => if n = 1 then some ("boom") else none) j = none) ∧
      (fun n => if n = 1 then some ("boom") else none) 1 = some ("boom") ∧
      1 * 1 <
        ([⟨0, ("a"), ("x"), ("1"), ("1"), 0, ("ck1"), ("s")⟩,
            ⟨0, ("b"), ("x"), ("1"), ("1"), 0, ("ck2"), ("s")⟩] : List Rpm).length ∧
      PagedRpmInsert 1 (fun n => if n = 1 then some ("boom") else none) [] 5
          [⟨0, ("a"), ("x"), ("1"), ("1"), 0, ("ck1"), ("s")⟩,
            ⟨0, ("b"), ("x"), ("1"), ("1"), 0, ("ck2"), ("s")⟩] =
        ⟨(createRpms [] 5
              (([⟨0, ("a"), ("x"), ("1"), ("1"), 0, ("ck1"), ("s")⟩,
                  ⟨0, ("b"), ("x"), ("1"), ("1"), 0, ("ck2"), ("s")⟩] :
                    List Rpm).take (1 * 1))).rowsAffected,
          (createRpms [] 5
              (([⟨0, ("a"), ("x"), ("1"), ("1"), 0, ("ck1"), ("s")⟩,
                  ⟨0, ("b"), ("x"), ("1"), ("1"), 0, ("ck2"), ("s")⟩] :
                    List Rpm).take (1 * 1))).rows,
          (createRpms [] 5
              (([⟨0, ("a"), ("x"), ("1"), ("1"), 0, ("ck1"), ("s")⟩,
                  ⟨0, ("b"), ("x"), ("1"), ("1"), 0, ("ck2"), ("s")⟩] :
                    List Rpm).take (1 * 1))).nextId,
          some (.chunkErr ("boom"))⟩ :=
  ⟨by decide,
    fun j hj => by
      have hj0 : j = 0 := by omega
      subst hj0
      rfl,
    rfl, by decide,
    PagedRpmInsert_chunk_failure 1 _ [] 5 _ 1 ("boom") (by decide)
      (fun j hj => by
        have hj0 : j = 0 := by omega
        subst hj0
        rfl)
      rfl (by decide)⟩

theorem pagedGo_fuel_irrel (chunk : Nat) (fail : Nat → Option String)
    (hc : 0 < chunk) :
    ∀ (fuel fuel' k : Nat) (rest rows : List Rpm) (nid count : Nat),
      rest.length ≤ fuel → rest.length ≤ fuel' →
      pagedGo chunk fail fuel k rest rows nid count =
        pagedGo chunk fail fuel' k rest rows nid count := by
  intro fuel
  induction fuel with
  | zero =>
    intro fuel' k rest rows nid count h h'
    have hnil : rest = [] := List.length_eq_zero.mp (Nat.le_zero.mp h)
    subst hnil
    cases fuel' <;> simp [pagedGo]
  | succ fuel ih =>
    intro fuel' k rest rows nid count h h'
    cases rest with
    | nil => cases fuel' <;> simp [pagedGo]
    | cons p rest' =>
      cases fuel' with
      | zero => simp at h'
      | succ fuel'' =>
        simp only [pagedGo, List.isEmpty_cons, Bool.false_eq_true, if_false]
        cases hfk : fail k with
        | some e => rfl
        | none =>
          apply ih
          · rw [List.length_drop]
            simp only [List.length_cons] at h ⊢
            omega
          · rw [List.length_drop]
            simp only [List.length_cons] at h' ⊢
            omega

/-- Claim C10: every DAO instance built by `GetRpmDao` — whatever the
options, including a non-positive explicit limit — stores a strictly
positive chunk size; under it the loop index strictly increases each
iteration and the chunked loop terminates on every input: fuel
`pkgs.length` already completes the loop, so any larger fuel yields the
same result. -/
theorem GetRpmDao_chunk_positive (options : Option RpmDaoOptions)
    (configValue : Int) :
    0 < GetRpmDao options configValue ∧
      (∀ i : Nat, i < i + (GetRpmDao options configValue).toNat) ∧
      ∀ (fail : Nat → Option String) (rows pkgs : List Rpm) (nid fuel : Nat),
        pkgs.length ≤ fuel →
        pagedGo (GetRpmDao options configValue).toNat fail fuel 0 pkgs rows nid 0 =
          pagedGo (GetRpmDao options configValue).toNat fail pkgs.length 0 pkgs
            rows nid 0 := by
  have hpos : 0 < GetRpmDao options configValue := by
    unfold GetRpmDao DefaultPagedRpmInsertsLimit
    cases options with
    | none => dsimp only; split <;> omega
    | some o =>
      cases hopt : o.pagedRpmInsertsLimit with
      | none => dsimp only; split <;> omega
      | some v => dsimp only; split <;> omega
  have htn : 0 < (GetRpmDao options configValue).toNat := by omega
  refine ⟨hpos, fun i => by omega, ?_⟩
  intro fail rows pkgs nid fuel hfuel
  exact pagedGo_fuel_irrel _ fail htn fuel pkgs.length 0 pkgs rows nid 0 hfuel
    (le_refl _)

/-- Witness for C10: an explicitly non-positive option still yields a
positive chunk size, and extra fuel does not change the loop's result. -/
theorem GetRpmDao_chunk_positive_witness :
    0 < GetRpmDao (some ⟨some (-5)⟩) (-3) ∧
      5 < 5 + (GetRpmDao (some ⟨some (-5)⟩) (-3)).toNat ∧
      pagedGo (GetRpmDao (some ⟨some (-5)⟩) (-3)).toNat noFail 7 0
          [⟨0, ("a"), ("x"), ("1"), ("1"), 0, ("ck1"), ("s")⟩] [] 5 0 =
        pagedGo (GetRpmDao (some ⟨some (-5)⟩) (-3)).toNat noFail
          ([⟨0, ("a"), ("x"), ("1"), ("1"), 0, ("ck1"), ("s")⟩] : List Rpm).length 0
          [⟨0, ("a"), ("x"), ("1"), ("1"), 0, ("ck1"), ("s")⟩] [] 5 0 :=
  ⟨(GetRpmDao_chunk_positive (some ⟨some (-5)⟩) (-3)).1,
    (GetRpmDao_chunk_positive (some ⟨some (-5)⟩) (-3)).2.1 5,
    (GetRpmDao_chunk_positive (some ⟨some (-5)⟩) (-3)).2.2 noFail []
      [⟨0, ("a"), ("x"), ("1"), ("1"), 0, ("ck1"), ("s")⟩] 5 7 (by decide)⟩

/-! ## The catalog query layer -/

/-- Claim C7: `List` on a repository configuration not owned by the caller's
(non-empty) organization — including configurations that do not exist —
returns the `NotOwned` error together with the empty collection and a zero
total count: no package data leaks. -/
theorem Dao_List_not_owned (db : DB) (orgID : String)
    (repositoryConfigUUID : Nat) (limit offset : Int) (horg : orgID ≠ "")
    (hNotOwned : isOwnedRepository db orgID repositoryConfigUUID = false) :
    Dao.List db orgID repositoryConfigUUID limit offset =
      (⟨[], ⟨0, 0, 0⟩⟩, 0, some (.notOwned repositoryConfigUUID)) := by
  unfold Dao.List
  rw [if_neg horg, if_pos hNotOwned]

/-- Witness for C7: a configuration owned by another organization. -/
theorem Dao_List_not_owned_witness :
    (("acme") ≠ ("") ∧
      isOwnedRepository ⟨[], [], [], [⟨3, ("evilcorp"), 1⟩], 0⟩ ("acme") 3 = false) ∧
      Dao.List ⟨[], [], [], [⟨3, ("evilcorp"), 1⟩], 0⟩ ("acme") 3 10 0 =
        (⟨[], ⟨0, 0, 0⟩⟩, 0, some (.notOwned 3)) :=
  ⟨⟨by decide, by decide⟩,
    Dao_List_not_owned ⟨[], [], [], [⟨3, ("evilcorp"), 1⟩], 0⟩ ("acme") 3 10 0
      (by decide) (by decide)⟩

/-- Counterexample for C5: a repository stored without a trailing slash is
NOT matched by a search request whose URL carries the trailing slash — the
code only appends a slash to each request URL, it never strips one.  The
same database and package are found when the request URL matches exactly, so
the miss is due to the URL candidates alone. -/
theorem Search_trailing_slash_counterexample :
    Search ⟨[⟨10, ("demo-lib"), ("x86_64"), ("1"), ("1"), 0, ("ck1"), ("s1")⟩],
        [⟨1, ("http://x"), true⟩], [⟨1, 10⟩], [], 20⟩
      ("acme") ⟨[("http://x/")], ("demo")⟩ 10 = .ok [] ∧
      Search ⟨[⟨10, ("demo-lib"), ("x86_64"), ("1"), ("1"), 0, ("ck1"), ("s1")⟩],
          [⟨1, ("http://x"), true⟩], [⟨1, 10⟩], [], 20⟩
        ("acme") ⟨[("http://x")], ("demo")⟩ 10 =
        .ok [⟨("demo-lib"), ("s1")⟩] := by
  constructor
  · decide
  · decide

/-- Claim C5 (amended): the trailing-slash tolerance is one-directional.
For every request URL `u`, both `u` itself and `u ++ "/"` are candidate
matches, so a repository stored as `u` or as `u ++ "/"` is matched by a
request containing `u`; a repository stored without the slash is not matched
by a request carrying the slash. -/
theorem searchUrls_tolerates_stored_slash (urls : List String) (u : String)
    (hu : u ∈ urls) : u ∈ searchUrls urls ∧ (u ++ ("/")) ∈ searchUrls urls := by
  induction urls with
  | nil => cases hu
  | cons v rest ih =>
    cases hu with
    | head => exact ⟨by simp [searchUrls], by simp [searchUrls]⟩
    | tail _ h =>
      have hm := ih h
      exact ⟨by simp [searchUrls, hm.1], by simp [searchUrls, hm.2]⟩

/-- Witness for C5 (amended) at a concrete request. -/
theorem searchUrls_tolerates_stored_slash_witness :
    ("http://x") ∈ [("http://x")] ∧
      (("http://x") ∈ searchUrls [("http://x")] ∧
        (("http://x") ++ ("/")) ∈ searchUrls [("http://x")]) :=
  ⟨by decide, searchUrls_tolerates_stored_slash [("http://x")] ("http://x") (by decide)⟩

/-- Claim C6 (code bug): the query's own comment documents
`ORDER BY rpms.name, rpms.epoch DESC`, but the code orders by `rpms.name`
only, so `DISTINCT ON (rpms.name)` keeps whichever row of a name group the
scan meets first.  Here the lower-epoch row (epoch 1, summary "old") is met
first and its summary is returned, not the highest-epoch summary "new". -/
theorem Search_epoch_tiebreak_bug :
    Search ⟨[⟨10, ("demo-lib"), ("x"), ("1"), ("1"), 1, ("ck1"), ("old")⟩,
          ⟨11, ("demo-lib"), ("x"), ("1"), ("1"), 2, ("ck2"), ("new")⟩],
        [⟨1, ("http://x"), true⟩], [⟨1, 10⟩, ⟨1, 11⟩], [], 20⟩
      ("acme") ⟨[("http://x")], ("demo")⟩ 50 =
      .ok [⟨("demo-lib"), ("old")⟩] := by
  decide

/-! ## Lemmas about deleteUnneeded -/

theorem deleteUnneeded_repositoriesRpms (db : DB) (repo : Repository)
    (us : List Nat) :
    (deleteUnneeded db repo us).repositoriesRpms = remainingAssocs db repo us := by
  unfold deleteUnneeded
  split <;> rfl

theorem deleteUnneeded_rpms (db : DB) (repo : Repository) (us : List Nat) :
    (deleteUnneeded db repo us).rpms =
      db.rpms.filter (fun r => !(danglingRpmUuids db repo us).contains r.uuid) := by
  unfold deleteUnneeded
  split
  · rename_i h
    rw [List.length_eq_zero.mp h]
    simp
  · rfl

theorem deleteUnneeded_repositories (db : DB) (repo : Repository)
    (us : List Nat) :
    (deleteUnneeded db repo us).repositories = db.repositories := by
  unfold deleteUnneeded
  split <;> rfl

theorem deleteUnneeded_repositoryConfigurations (db : DB) (repo : Repository)
    (us : List Nat) :
    (deleteUnneeded db repo us).repositoryConfigurations =
      db.repositoryConfigurations := by
  unfold deleteUnneeded
  split <;> rfl

theorem deleteUnneeded_nextId (db : DB) (repo : Repository) (us : List Nat) :
    (deleteUnneeded db repo us).nextId = db.nextId := by
  unfold deleteUnneeded
  split <;> rfl

theorem mem_existingRpmUuids_iff {db : DB} {repo : Repository} {x : Nat} :
    x ∈ existingRpmUuids db repo ↔
      ∃ m ∈ db.repositoriesRpms, m.repositoryUUID = repo.uuid ∧ m.rpmUUID = x := by
  unfold existingRpmUuids
  simp only [List.mem_map, List.mem_filter, beq_iff_eq]
  constructor
  · rintro ⟨m, ⟨hm, hrep⟩, hx⟩
    exact ⟨m, hm, hrep, hx⟩
  · rintro ⟨m, hm, hrep, hx⟩
    exact ⟨m, ⟨hm, hrep⟩, hx⟩

theorem mem_rpmsToDelete_iff {db : DB} {repo : Repository} {us : List Nat}
    {x : Nat} :
    x ∈ rpmsToDelete db repo us ↔ x ∈ existingRpmUuids db repo ∧ x ∉ us := by
  unfold rpmsToDelete difference
  simp [List.mem_filter]

theorem mem_remainingAssocs_iff {db : DB} {repo : Repository} {us : List Nat}
    {m : RepositoryRpm} :
    m ∈ remainingAssocs db repo us ↔
      m ∈ db.repositoriesRpms ∧
        (m.repositoryUUID ≠ repo.uuid ∨ m.rpmUUID ∉ rpmsToDelete db repo us) := by
  unfold remainingAssocs
  simp [List.mem_filter, not_and_or]

theorem mem_danglingRpmUuids_iff {db : DB} {repo : Repository} {us : List Nat}
    {x : Nat} :
    x ∈ danglingRpmUuids db repo us ↔
      ∃ r ∈ db.rpms, r.uuid = x ∧ x ∈ rpmsToDelete db repo us ∧
        ∀ m ∈ remainingAssocs db repo us, m.rpmUUID ≠ x := by
  unfold danglingRpmUuids
  simp only [List.mem_map, List.mem_filter, Bool.and_eq_true, Bool.not_eq_true',
    List.any_eq_false, beq_iff_eq, List.elem_iff]
  constructor
  · rintro ⟨r, ⟨hr, hdel, hno⟩, hx⟩
    refine ⟨r, hr, hx, by simpa [hx] using hdel, ?_⟩
    intro m hm
    have := hno m hm
    simpa [hx] using this
  · rintro ⟨r, hr, hx, hdel, hno⟩
    refine ⟨r, ⟨hr, by simpa [hx] using hdel, ?_⟩, hx⟩
    intro m hm
    simpa [hx] using hno m hm

/-- Claim C4: after `deleteUnneeded`, a package `u` whose only membership
was the association being removed is deleted from the package store, while
a package `v` that loses its membership in this repository but retains a
membership in another repository is kept (and its membership in this
repository is indeed gone). -/
theorem deleteUnneeded_orphan_collection (db : DB) (repo : Repository)
    (rpm_uuids : List Nat) (u v : Nat)
    (hu_mem : ∃ m ∈ db.repositoriesRpms, m.repositoryUUID = repo.uuid ∧ m.rpmUUID = u)
    (hu_removed : u ∉ rpm_uuids)
    (hu_only : ∀ m ∈ db.repositoriesRpms, m.rpmUUID = u → m.repositoryUUID = repo.uuid)
    (hv_mem : ∃ m ∈ db.repositoriesRpms, m.repositoryUUID = repo.uuid ∧ m.rpmUUID = v)
    (hv_removed : v ∉ rpm_uuids)
    (hv_other : ∃ m ∈ db.repositoriesRpms, m.rpmUUID = v ∧ m.repositoryUUID ≠ repo.uuid) :
    (∀ r ∈ (deleteUnneeded db repo rpm_uuids).rpms, r.uuid ≠ u) ∧
      (∀ r ∈ db.rpms, r.uuid = v → r ∈ (deleteUnneeded db repo rpm_uuids).rpms) ∧
      (∀ m ∈ (deleteUnneeded db repo rpm_uuids).repositoriesRpms,
        ¬(m.repositoryUUID = repo.uuid ∧ m.rpmUUID = v)) := by
  have hu_del : u ∈ rpmsToDelete db repo rpm_uuids :=
    mem_rpmsToDelete_iff.mpr ⟨mem_existingRpmUuids_iff.mpr hu_mem, hu_removed⟩
  have hv_del : v ∈ rpmsToDelete db repo rpm_uuids :=
    mem_rpmsToDelete_iff.mpr ⟨mem_existingRpmUuids_iff.mpr hv_mem, hv_removed⟩
  have hu_noassoc : ∀ m ∈ remainingAssocs db repo rpm_uuids, m.rpmUUID ≠ u := by
    intro m hm hmu
    rcases mem_remainingAssocs_iff.mp hm with ⟨hmem, hdisj⟩
    have hrep : m.repositoryUUID = repo.uuid := hu_only m hmem hmu
    cases hdisj with
    | inl h => exact h hrep
    | inr h => exact h (hmu ▸ hu_del)
  refine ⟨?_, ?_, ?_⟩
  · intro r hr hru
    rw [deleteUnneeded_rpms] at hr
    rcases List.mem_filter.mp hr with ⟨hrdb, hcond⟩
    have hdang : u ∈ danglingRpmUuids db repo rpm_uuids :=
      mem_danglingRpmUuids_iff.mpr ⟨r, hrdb, hru, hu_del, hu_noassoc⟩
    rw [Bool.not_eq_true', ← Bool.not_eq_true] at hcond
    exact hcond (by simpa [List.elem_iff, hru] using hdang)
  · intro r hr hrv
    rw [deleteUnneeded_rpms]
    refine List.mem_filter.mpr ⟨hr, ?_⟩
    have hvnd : v ∉ danglingRpmUuids db repo rpm_uuids := by
      intro hvd
      rcases mem_danglingRpmUuids_iff.mp hvd with ⟨r', _, _, _, hnoref⟩
      rcases hv_other with ⟨m, hmdb, hmv, hmne⟩
      exact hnoref m (mem_remainingAssocs_iff.mpr ⟨hmdb, Or.inl hmne⟩) hmv
    simp [hrv, List.elem_iff, hvnd]
  · intro m hm hbad
    rw [deleteUnneeded_repositoriesRpms] at hm
    rcases mem_remainingAssocs_iff.mp hm with ⟨_, hdisj⟩
    cases hdisj with
    | inl h => exact h hbad.1
    | inr h => exact h (hbad.2 ▸ hv_del)

/-- Witness for C4: rpm 10's only membership is in repository 1 (being
emptied), rpm 11 is also a member of repository 2. -/
theorem deleteUnneeded_orphan_collection_witness :
    ((∃ m ∈ ([⟨1, 10⟩, ⟨1, 11⟩, ⟨2, 11⟩] : List RepositoryRpm),
        m.repositoryUUID = 1 ∧ m.rpmUUID = 10) ∧
      10 ∉ ([] : List Nat) ∧
      (∀ m ∈ ([⟨1, 10⟩, ⟨1, 11⟩, ⟨2, 11⟩] : List RepositoryRpm),
        m.rpmUUID = 10 → m.repositoryUUID = 1) ∧
      (∃ m ∈ ([⟨1, 10⟩, ⟨1, 11⟩, ⟨2, 11⟩] : List RepositoryRpm),
        m.repositoryUUID = 1 ∧ m.rpmUUID = 11) ∧
      11 ∉ ([] : List Nat) ∧
      (∃ m ∈ ([⟨1, 10⟩, ⟨1, 11⟩, ⟨2, 11⟩] : List RepositoryRpm),
        m.rpmUUID = 11 ∧ m.repositoryUUID ≠ 1)) ∧
      ((∀ r ∈ (deleteUnneeded
            ⟨[⟨10, ("a"), ("x"), ("1"), ("1"), 0, ("ck1"), ("s")⟩,
                ⟨11, ("b"), ("x"), ("1"), ("1"), 0, ("ck2"), ("s")⟩],
              [⟨1, ("u1"), true⟩, ⟨2, ("u2"), true⟩],
              [⟨1, 10⟩, ⟨1, 11⟩, ⟨2, 11⟩], [], 20⟩
            ⟨1, ("u1"), true⟩ []).rpms, r.uuid ≠ 10) ∧
        (∀ r ∈ ([⟨10, ("a"), ("x"), ("1"), ("1"), 0, ("ck1"), ("s")⟩,
            ⟨11, ("b"), ("x"), ("1"), ("1"), 0, ("ck2"), ("s")⟩] : List Rpm),
          r.uuid = 11 →
            r ∈ (deleteUnneeded
              ⟨[⟨10, ("a"), ("x"), ("1"), ("1"), 0, ("ck1"), ("s")⟩,
                  ⟨11, ("b"), ("x"), ("1"), ("1"), 0, ("ck2"), ("s")⟩],
                [⟨1, ("u1"), true⟩, ⟨2, ("u2"), true⟩],
                [⟨1, 10⟩, ⟨1, 11⟩, ⟨2, 11⟩], [], 20⟩
              ⟨1, ("u1"), true⟩ []).rpms) ∧
        (∀ m ∈ (deleteUnneeded
            ⟨[⟨10, ("a"), ("x"), ("1"), ("1"), 0, ("ck1"), ("s")⟩,
                ⟨11, ("b"), ("x"), ("1"), ("1"), 0, ("ck2"), ("s")⟩],
              [⟨1, ("u1"), true⟩, ⟨2, ("u2"), true⟩],
              [⟨1, 10⟩, ⟨1, 11⟩, ⟨2, 11⟩], [], 20⟩
            ⟨1, ("u1"), true⟩ []).repositoriesRpms,
          ¬(m.repositoryUUID = 1 ∧ m.rpmUUID = 11))) :=
  ⟨⟨by decide, by decide, by decide, by decide, by decide, by decide⟩,
    deleteUnneeded_orphan_collection
      ⟨[⟨10, ("a"), ("x"), ("1"), ("1"), 0, ("ck1"), ("s")⟩,
          ⟨11, ("b"), ("x"), ("1"), ("1"), 0, ("ck2"), ("s")⟩],
        [⟨1, ("u1"), true⟩, ⟨2, ("u2"), true⟩],
        [⟨1, 10⟩, ⟨1, 11⟩, ⟨2, 11⟩], [], 20⟩
      ⟨1, ("u1"), true⟩ [] 10 11 (by decide) (by decide) (by decide) (by decide)
      (by decide) (by decide)⟩

/-- Claim C3 (code bug): `InsertForRepository(repo, [])` does remove all of
the repository's memberships, deletes the packages that thereby lost their
last membership, and computes `newPackagesInserted = 0` — but it does NOT
return without error: the unconditional `Create(&associations)` on the empty
association slice fails with gorm's `ErrEmptySlice` ("empty slice found").
Evaluated on a repository (uuid 1) holding rpm 10 (only member there) and
rpm 11 (also member of repository 2). -/
theorem InsertForRepository_empty_manifest_bug :
    (InsertForRepository 1 noFail
        ⟨[⟨10, ("a"), ("x"), ("1"), ("1"), 0, ("ck1"), ("s")⟩,
            ⟨11, ("b"), ("x"), ("1"), ("1"), 0, ("ck2"), ("s")⟩],
          [⟨1, ("u1"), true⟩, ⟨2, ("u2"), true⟩],
          [⟨1, 10⟩, ⟨1, 11⟩, ⟨2, 11⟩], [], 20⟩
        1 []).newRpms = 0 ∧
      (InsertForRepository 1 noFail
          ⟨[⟨10, ("a"), ("x"), ("1"), ("1"), 0, ("ck1"), ("s")⟩,
              ⟨11, ("b"), ("x"), ("1"), ("1"), 0, ("ck2"), ("s")⟩],
            [⟨1, ("u1"), true⟩, ⟨2, ("u2"), true⟩],
            [⟨1, 10⟩, ⟨1, 11⟩, ⟨2, 11⟩], [], 20⟩
          1 []).db.repositoriesRpms = [⟨2, 11⟩] ∧
      (InsertForRepository 1 noFail
          ⟨[⟨10, ("a"), ("x"), ("1"), ("1"), 0, ("ck1"), ("s")⟩,
              ⟨11, ("b"), ("x"), ("1"), ("1"), 0, ("ck2"), ("s")⟩],
            [⟨1, ("u1"), true⟩, ⟨2, ("u2"), true⟩],
            [⟨1, 10⟩, ⟨1, 11⟩, ⟨2, 11⟩], [], 20⟩
          1 []).db.rpms = [⟨11, ("b"), ("x"), ("1"), ("1"), 0, ("ck2"), ("s")⟩] ∧
      (InsertForRepository 1 noFail
          ⟨[⟨10, ("a"), ("x"), ("1"), ("1"), 0, ("ck1"), ("s")⟩,
              ⟨11, ("b"), ("x"), ("1"), ("1"), 0, ("ck2"), ("s")⟩],
            [⟨1, ("u1"), true⟩, ⟨2, ("u2"), true⟩],
            [⟨1, 10⟩, ⟨1, 11⟩, ⟨2, 11⟩], [], 20⟩
          1 []).err = some (.wrapped ("failed to Create") .emptySlice) := by
  refine ⟨by decide, by decide, by decide, by decide⟩

/-! ## Lemmas towards idempotence of InsertForRepository -/

theorem checksumExists_iff {rows : List Rpm} {c : String} :
    checksumExists rows c = true ↔ ∃ r ∈ rows, r.checksum = c := by
  simp [checksumExists]

theorem stringInSlice_iff {a : String} {l : List String} :
    stringInSlice a l = true ↔ a ∈ l := by
  simp [stringInSlice]

theorem mem_pluckExistingChecksums {rows : List Rpm} {cks : List String}
    {c : String} :
    c ∈ pluckExistingChecksums rows cks ↔
      ∃ r ∈ rows, r.checksum = c ∧ c ∈ cks := by
  unfold pluckExistingChecksums
  simp only [List.mem_map, List.mem_filter, List.elem_iff]
  constructor
  · rintro ⟨r, ⟨hr, hck⟩, hc⟩
    exact ⟨r, hr, hc, hc ▸ (by simpa using hck)⟩
  · rintro ⟨r, hr, hc, hin⟩
    exact ⟨r, ⟨hr, by simp [hc ▸ hin]⟩, hc⟩

theorem mem_pluckRpmUuids {rows : List Rpm} {cks : List String} {r : Rpm}
    (hr : r ∈ rows) (hin : r.checksum ∈ cks) :
    r.uuid ∈ pluckRpmUuids rows cks :=
  List.mem_map_of_mem _ (List.mem_filter.mpr ⟨hr, by simp [hin]⟩)

theorem FilteredConvert_eq_nil {pkgs : List YumPackage} {ex : List String}
    (h : ∀ p ∈ pkgs, stringInSlice p.checksum.value ex = true) :
    FilteredConvert pkgs ex = [] := by
  unfold FilteredConvert
  rw [List.filter_eq_nil_iff.mpr (fun p hp => by simp [h p hp])]
  rfl

theorem createRpms_rows_eq (pkgs : List Rpm) :
    ∀ (rows : List Rpm) (nid : Nat),
      ∃ ext, (createRpms rows nid pkgs).rows = rows ++ ext := by
  induction pkgs with
  | nil => intro rows nid; exact ⟨[], by simp [createRpms]⟩
  | cons p rest ih =>
    intro rows nid
    by_cases h : checksumExists rows p.checksum
    · simpa [createRpms, h] using ih rows nid
    · rcases ih (rows ++ [{ p with uuid := nid }]) (nid + 1) with ⟨ext, hext⟩
      exact ⟨[{ p with uuid := nid }] ++ ext, by
        simp [createRpms, h, hext, List.append_assoc]⟩

theorem checksumExists_createRpms_mono (pkgs rows : List Rpm) (nid : Nat)
    (c : String) (h : checksumExists rows c = true) :
    checksumExists (createRpms rows nid pkgs).rows c = true := by
  rcases createRpms_rows_eq pkgs rows nid with ⟨ext, hext⟩
  rw [hext, checksumExists_append, h]
  rfl

theorem checksumExists_createRpms_self (pkgs : List Rpm) :
    ∀ (rows : List Rpm) (nid : Nat) (p : Rpm), p ∈ pkgs →
      checksumExists (createRpms rows nid pkgs).rows p.checksum = true := by
  induction pkgs with
  | nil => intro rows nid p hp; cases hp
  | cons q rest ih =>
    intro rows nid p hp
    by_cases h : checksumExists rows q.checksum
    · simp only [createRpms, h, if_true]
      cases hp with
      | head => exact checksumExists_createRpms_mono rest rows nid q.checksum h
      | tail _ hmem => exact ih rows nid p hmem
    · simp only [createRpms, h, Bool.false_eq_true, if_false]
      cases hp with
      | head =>
        apply checksumExists_createRpms_mono
        rw [checksumExists_append]
        simp [checksumExists]
      | tail _ hmem => exact ih (rows ++ [{ q with uuid := nid }]) (nid + 1) p hmem

theorem fetchRepo_eq_of_repositories {X Y : DB}
    (h : X.repositories = Y.repositories) (u : Nat) :
    fetchRepo X u = fetchRepo Y u := by
  unfold fetchRepo
  rw [h]

theorem mem_prepRepositoryRpms {repo : Repository} {us : List Nat}
    {m : RepositoryRpm} :
    m ∈ prepRepositoryRpms repo us ↔
      m.repositoryUUID = repo.uuid ∧ m.rpmUUID ∈ us := by
  unfold prepRepositoryRpms
  simp only [List.mem_map]
  constructor
  · rintro ⟨u, hu, rfl⟩
    exact ⟨rfl, hu⟩
  · rintro ⟨h1, h2⟩
    exact ⟨m.rpmUUID, h2, by cases m; simpa using h1.symm⟩

theorem pairAny_of_mem {rows : List RepositoryRpm} {a : RepositoryRpm}
    (ha : a ∈ rows) :
    (rows.any fun m =>
      m.repositoryUUID == a.repositoryUUID && m.rpmUUID == a.rpmUUID) = true := by
  rw [List.any_eq_true]
  exact ⟨a, ha, by simp⟩

theorem createRepositoryRpms_rows_eq (l : List RepositoryRpm) :
    ∀ rows : List RepositoryRpm, ∃ ext, createRepositoryRpms rows l = rows ++ ext := by
  induction l with
  | nil => intro rows; exact ⟨[], by simp [createRepositoryRpms]⟩
  | cons a rest ih =>
    intro rows
    by_cases h : (rows.any fun m =>
        m.repositoryUUID == a.repositoryUUID && m.rpmUUID == a.rpmUUID) = true
    · simpa [createRepositoryRpms, h] using ih rows
    · rcases ih (rows ++ [a]) with ⟨ext, hext⟩
      exact ⟨[a] ++ ext, by simp [createRepositoryRpms, h, hext, List.append_assoc]⟩

theorem mem_createRepositoryRpms_of_mem {rows l : List RepositoryRpm}
    {m : RepositoryRpm} (hm : m ∈ rows) : m ∈ createRepositoryRpms rows l := by
  rcases createRepositoryRpms_rows_eq l rows with ⟨ext, hext⟩
  rw [hext]
  exact List.mem_append_left ext hm

theorem createRepositoryRpms_mem (l : List RepositoryRpm) :
    ∀ (rows : List RepositoryRpm) (a : RepositoryRpm), a ∈ l →
      a ∈ createRepositoryRpms rows l := by
  induction l with
  | nil => intro rows a ha; cases ha
  | cons b rest ih =>
    intro rows a ha
    by_cases h : (rows.any fun m =>
        m.repositoryUUID == b.repositoryUUID && m.rpmUUID == b.rpmUUID) = true
    · simp only [createRepositoryRpms, h, if_true]
      cases ha with
      | head =>
        rcases List.any_eq_true.mp h with ⟨m, hm, hmb⟩
        have hmb' : m = b := by
          cases m; cases b
          simpa using hmb
        exact mem_createRepositoryRpms_of_mem (hmb' ▸ hm)
      | tail _ hmem => exact ih rows a hmem
    · simp only [createRepositoryRpms, h, Bool.false_eq_true, if_false]
      cases ha with
      | head =>
        exact mem_createRepositoryRpms_of_mem
          (List.mem_append_right rows (by simp))
      | tail _ hmem => exact ih (rows ++ [b]) a hmem

theorem createRepositoryRpms_sub (l : List RepositoryRpm) :
    ∀ (rows : List RepositoryRpm) (m : RepositoryRpm),
      m ∈ createRepositoryRpms rows l → m ∈ rows ∨ m ∈ l := by
  induction l with
  | nil => intro rows m hm; exact Or.inl hm
  | cons a rest ih =>
    intro rows m hm
    by_cases h : (rows.any fun m' =>
        m'.repositoryUUID == a.repositoryUUID && m'.rpmUUID == a.rpmUUID) = true
    · rw [createRepositoryRpms, if_pos h] at hm
      rcases ih rows m hm with h1 | h2
      · exact Or.inl h1
      · exact Or.inr (List.mem_cons_of_mem a h2)
    · rw [createRepositoryRpms, if_neg h] at hm
      rcases ih (rows ++ [a]) m hm with h1 | h2
      · rcases List.mem_append.mp h1 with h3 | h4
        · exact Or.inl h3
        · exact Or.inr (by simpa using Or.inl (List.mem_singleton.mp h4))
      · exact Or.inr (List.mem_cons_of_mem a h2)

theorem createRepositoryRpms_eq_self (l : List RepositoryRpm) :
    ∀ rows : List RepositoryRpm, (∀ a ∈ l, a ∈ rows) →
      createRepositoryRpms rows l = rows := by
  induction l with
  | nil => intro rows _; rfl
  | cons a rest ih =>
    intro rows h
    rw [createRepositoryRpms, if_pos (pairAny_of_mem (h a (by simp)))]
    exact ih rows (fun b hb => h b (List.mem_cons_of_mem a hb))

theorem deleteUnneeded_noop (db : DB) (repo : Repository) (us : List Nat)
    (h : ∀ m ∈ db.repositoriesRpms, m.repositoryUUID = repo.uuid →
      m.rpmUUID ∈ us) :
    deleteUnneeded db repo us = db := by
  have hdel : rpmsToDelete db repo us = [] := by
    unfold rpmsToDelete difference
    apply List.filter_eq_nil_iff.mpr
    intro x hx
    rcases mem_existingRpmUuids_iff.mp hx with ⟨m, hm, hrep, hxm⟩
    simp [hxm ▸ h m hm hrep]
  have hassoc : remainingAssocs db repo us = db.repositoriesRpms := by
    unfold remainingAssocs
    apply List.filter_eq_self.mpr
    intro m _
    simp [hdel]
  have hdang : danglingRpmUuids db repo us = [] := by
    unfold danglingRpmUuids
    rw [hdel]
    simp
  unfold deleteUnneeded
  rw [hdang, hassoc]
  rfl

theorem InsertForRepository_noop (chunk : Nat) (X : DB)
    (repoUuid : Nat) (repo : Repository) (pkgs : List YumPackage)
    (hfetch : fetchRepo X repoUuid = .ok repo)
    (hcks : ∀ p ∈ pkgs, checksumExists X.rpms p.checksum.value = true)
    (hassoc : ∀ m ∈ X.repositoriesRpms, m.repositoryUUID = repo.uuid →
      m.rpmUUID ∈ pluckRpmUuids X.rpms (pkgs.map (fun p => p.checksum.value)))
    (hhas : ∀ a ∈ prepRepositoryRpms repo
        (pluckRpmUuids X.rpms (pkgs.map (fun p => p.checksum.value))),
      a ∈ X.repositoriesRpms) :
    InsertForRepository chunk noFail X repoUuid pkgs =
      ⟨0, X,
        if (prepRepositoryRpms repo
            (pluckRpmUuids X.rpms (pkgs.map (fun p => p.checksum.value)))).length = 0
        then some (.wrapped ("failed to Create") .emptySlice)
        else none⟩ := by
  have hex2 : ∀ p ∈ pkgs, stringInSlice p.checksum.value
      (pluckExistingChecksums X.rpms (pkgs.map (fun q => q.checksum.value))) = true := by
    intro p hp
    rw [stringInSlice_iff, mem_pluckExistingChecksums]
    rcases checksumExists_iff.mp (hcks p hp) with ⟨r, hr, hrc⟩
    exact ⟨r, hr, hrc, List.mem_map_of_mem _ hp⟩
  have hfc : FilteredConvert pkgs
      (pluckExistingChecksums X.rpms (pkgs.map (fun q => q.checksum.value))) = [] :=
    FilteredConvert_eq_nil hex2
  have hdu : deleteUnneeded X repo
      (pluckRpmUuids X.rpms (pkgs.map (fun p => p.checksum.value))) = X :=
    deleteUnneeded_noop X repo _ hassoc
  simp only [InsertForRepository, hfetch]
  rw [hfc, PagedRpmInsert_empty]
  simp only []
  rw [show ({ X with rpms := X.rpms, nextId := X.nextId } : DB) = X from rfl]
  rw [hdu]
  by_cases h0 : (prepRepositoryRpms repo
      (pluckRpmUuids X.rpms (pkgs.map (fun p => p.checksum.value)))).length = 0
  · rw [if_pos h0, if_pos h0]
  · rw [if_neg h0, if_neg h0, createRepositoryRpms_eq_self _ _ hhas]

theorem mem_FilteredConvert {pkgs : List YumPackage} {ex : List String}
    {p : YumPackage} (hp : p ∈ pkgs)
    (h : stringInSlice p.checksum.value ex = false) :
    rpmFromYum p ∈ FilteredConvert pkgs ex := by
  unfold FilteredConvert
  exact List.mem_map_of_mem _ (List.mem_filter.mpr ⟨hp, by simp [h]⟩)

theorem InsertForRepository_rerun (chunk : Nat) (hc : 0 < chunk) (db : DB)
    (repoUuid : Nat) (pkgs : List YumPackage) :
    InsertForRepository chunk noFail
        (InsertForRepository chunk noFail db repoUuid pkgs).db repoUuid pkgs =
      ⟨0, (InsertForRepository chunk noFail db repoUuid pkgs).db,
        (InsertForRepository chunk noFail db repoUuid pkgs).err⟩ := by
  cases hfetch : fetchRepo db repoUuid with
  | error e =>
    have hr1 : InsertForRepository chunk noFail db repoUuid pkgs =
        ⟨0, db, some (.wrapped ("failed to fetchRepo") e)⟩ := by
      simp only [InsertForRepository, hfetch]
    rw [hr1]
    show InsertForRepository chunk noFail db repoUuid pkgs =
      ⟨0, db, some (.wrapped ("failed to fetchRepo") e)⟩
    exact hr1
  | ok repo =>
    set cks := pkgs.map (fun p => p.checksum.value) with hcks_def
    set ex1 := pluckExistingChecksums db.rpms cks with hex1_def
    set dbPkgs := FilteredConvert pkgs ex1 with hdbPkgs_def
    set cr := createRpms db.rpms db.nextId dbPkgs with hcr_def
    set db1 : DB := { db with rpms := cr.rows, nextId := cr.nextId } with hdb1_def
    set U1 := pluckRpmUuids cr.rows cks with hU1_def
    set db2 := deleteUnneeded db1 repo U1 with hdb2_def
    set assocs := prepRepositoryRpms repo U1 with hassocs_def
    have hr1 : InsertForRepository chunk noFail db repoUuid pkgs =
        if assocs.length = 0 then
          ⟨cr.rowsAffected, db2, some (.wrapped ("failed to Create") .emptySlice)⟩
        else
          ⟨cr.rowsAffected,
            { db2 with
              repositoriesRpms := createRepositoryRpms db2.repositoriesRpms assocs },
            none⟩ := by
      simp only [InsertForRepository, hfetch]
      rw [PagedRpmInsert_noFail chunk hc]
    have hckx : ∀ p ∈ pkgs, checksumExists cr.rows p.checksum.value = true := by
      intro p hp
      by_cases hex : checksumExists db.rpms p.checksum.value = true
      · exact checksumExists_createRpms_mono dbPkgs db.rpms db.nextId _ hex
      · have hnot : stringInSlice p.checksum.value ex1 = false := by
          apply Bool.eq_false_iff.mpr
          intro htrue
          rcases mem_pluckExistingChecksums.mp (stringInSlice_iff.mp htrue) with
            ⟨r, hr, hrc, _⟩
          exact hex (checksumExists_iff.mpr ⟨r, hr, hrc⟩)
        have hmemfc : rpmFromYum p ∈ dbPkgs := mem_FilteredConvert hp hnot
        have hself := checksumExists_createRpms_self dbPkgs db.rpms db.nextId
          (rpmFromYum p) hmemfc
        simpa [rpmFromYum] using hself
    have hkeep : ∀ r ∈ cr.rows, cks.contains r.checksum = true →
        (!(danglingRpmUuids db1 repo U1).contains r.uuid) = true := by
      intro r hr hin
      have hU : r.uuid ∈ U1 := mem_pluckRpmUuids hr (by simpa using hin)
      have hnd : r.uuid ∉ danglingRpmUuids db1 repo U1 := by
        intro hd
        rcases mem_danglingRpmUuids_iff.mp hd with ⟨r', _, _, hdel, _⟩
        exact (mem_rpmsToDelete_iff.mp hdel).2 hU
      simpa using hnd
    have hdb1rpms : db1.rpms = cr.rows := rfl
    have hF3 : db2.rpms.filter (fun r => cks.contains r.checksum) =
        cr.rows.filter (fun r => cks.contains r.checksum) := by
      rw [hdb2_def, deleteUnneeded_rpms, hdb1rpms, List.filter_filter]
      apply List.filter_congr
      intro r hr
      cases hin : cks.contains r.checksum
      · simp [hin]
      · have hk := hkeep r hr hin
        simp [hin]
        simpa using hk
    have hF4 : pluckRpmUuids db2.rpms cks = U1 := by
      rw [hU1_def]
      unfold pluckRpmUuids
      rw [hF3]
    have hA1 : ∀ m ∈ remainingAssocs db1 repo U1, m.repositoryUUID = repo.uuid →
        m.rpmUUID ∈ U1 := by
      intro m hm hrep
      rcases mem_remainingAssocs_iff.mp hm with ⟨hmdb, hdisj⟩
      cases hdisj with
      | inl h => exact absurd hrep h
      | inr h =>
        by_contra hnot
        exact h (mem_rpmsToDelete_iff.mpr
          ⟨mem_existingRpmUuids_iff.mpr ⟨m, hmdb, hrep, rfl⟩, hnot⟩)
    have hdb2assocs : db2.repositoriesRpms = remainingAssocs db1 repo U1 := by
      rw [hdb2_def, deleteUnneeded_repositoriesRpms]
    have hdb2repos : db2.repositories = db.repositories := by
      rw [hdb2_def, deleteUnneeded_repositories, hdb1_def]
    have hsurv : ∀ p ∈ pkgs, checksumExists db2.rpms p.checksum.value = true := by
      intro p hp
      rcases checksumExists_iff.mp (hckx p hp) with ⟨r, hr, hrc⟩
      have hinck : cks.contains r.checksum = true := by
        rw [hcks_def]
        simp only [List.elem_iff, List.mem_map]
        exact ⟨p, hp, hrc.symm⟩
      have hrf : r ∈ cr.rows.filter (fun r => cks.contains r.checksum) :=
        List.mem_filter.mpr ⟨hr, hinck⟩
      rw [← hF3] at hrf
      exact checksumExists_iff.mpr ⟨r, (List.mem_filter.mp hrf).1, hrc⟩
    rw [hr1]
    by_cases h0 : assocs.length = 0
    · rw [if_pos h0]
      have hU1nil : U1 = [] := by
        rw [hassocs_def] at h0
        unfold prepRepositoryRpms at h0
        rw [List.length_map] at h0
        exact List.length_eq_zero.mp h0
      have hplk : pluckRpmUuids db2.rpms (pkgs.map (fun p => p.checksum.value)) = U1 :=
        hF4
      have hf2 : fetchRepo db2 repoUuid = .ok repo :=
        (fetchRepo_eq_of_repositories hdb2repos repoUuid).trans hfetch
      have ha2 : ∀ m ∈ db2.repositoriesRpms, m.repositoryUUID = repo.uuid →
          m.rpmUUID ∈ pluckRpmUuids db2.rpms (pkgs.map (fun p => p.checksum.value)) := by
        intro m hm hrep
        rw [hplk]
        exact hA1 m (hdb2assocs ▸ hm) hrep
      have hh2 : ∀ a ∈ prepRepositoryRpms repo
          (pluckRpmUuids db2.rpms (pkgs.map (fun p => p.checksum.value))),
          a ∈ db2.repositoriesRpms := by
        intro a ha
        rw [hplk, hU1nil] at ha
        simp [prepRepositoryRpms] at ha
      show InsertForRepository chunk noFail db2 repoUuid pkgs =
        ⟨0, db2, some (.wrapped ("failed to Create") .emptySlice)⟩
      rw [InsertForRepository_noop chunk db2 repoUuid repo pkgs hf2 hsurv ha2 hh2]
      rw [hplk, hU1nil]
      rfl
    · rw [if_neg h0]
      set db3 : DB :=
        { db2 with
          repositoriesRpms := createRepositoryRpms db2.repositoriesRpms assocs }
        with hdb3_def
      have hplk3 : pluckRpmUuids db3.rpms (pkgs.map (fun p => p.checksum.value)) = U1 :=
        hF4
      have hf3 : fetchRepo db3 repoUuid = .ok repo :=
        (fetchRepo_eq_of_repositories
          (show db3.repositories = db.repositories from hdb2repos) repoUuid).trans hfetch
      have hc3 : ∀ p ∈ pkgs, checksumExists db3.rpms p.checksum.value = true := hsurv
      have ha3 : ∀ m ∈ db3.repositoriesRpms, m.repositoryUUID = repo.uuid →
          m.rpmUUID ∈ pluckRpmUuids db3.rpms (pkgs.map (fun p => p.checksum.value)) := by
        intro m hm hrep
        rw [hplk3]
        have hm' : m ∈ createRepositoryRpms db2.repositoriesRpms assocs := hm
        rcases createRepositoryRpms_sub assocs db2.repositoriesRpms m hm' with h1 | h2
        · exact hA1 m (hdb2assocs ▸ h1) hrep
        · rw [hassocs_def] at h2
          exact (mem_prepRepositoryRpms.mp h2).2
      have hh3 : ∀ a ∈ prepRepositoryRpms repo
          (pluckRpmUuids db3.rpms (pkgs.map (fun p => p.checksum.value))),
          a ∈ db3.repositoriesRpms := by
        intro a ha
        rw [hplk3, ← hassocs_def] at ha
        show a ∈ createRepositoryRpms db2.repositoriesRpms assocs
        exact createRepositoryRpms_mem assocs db2.repositoriesRpms a ha
      show InsertForRepository chunk noFail db3 repoUuid pkgs = ⟨0, db3, none⟩
      rw [InsertForRepository_noop chunk db3 repoUuid repo pkgs hf3 hc3 ha3 hh3]
      rw [hplk3, ← hassocs_def, if_neg h0]

/-- Claim C1: running `InsertForRepository` twice in sequence with the same
manifest (with the store itself not failing and a positive chunk size, as
`GetRpmDao` guarantees) yields `newPackagesInserted = 0` from the second
call, and the membership association table after the second call equals the
one after the first call. -/
theorem InsertForRepository_idempotent (chunk : Nat) (db : DB) (repoUuid : Nat)
    (pkgs : List YumPackage) (hc : 0 < chunk) :
    (InsertForRepository chunk noFail
        (InsertForRepository chunk noFail db repoUuid pkgs).db repoUuid
        pkgs).newRpms = 0 ∧
      (InsertForRepository chunk noFail
          (InsertForRepository chunk noFail db repoUuid pkgs).db repoUuid
          pkgs).db.repositoriesRpms =
        (InsertForRepository chunk noFail db repoUuid pkgs).db.repositoriesRpms := by
  rw [InsertForRepository_rerun chunk hc db repoUuid pkgs]
  exact ⟨rfl, rfl⟩

/-- Witness for C1: one repository, a manifest with one new package,
chunk size 1. -/
theorem InsertForRepository_idempotent_witness :
    (0 : Nat) < 1 ∧
      ((InsertForRepository 1 noFail
          (InsertForRepository 1 noFail ⟨[], [⟨1, ("u1"), true⟩], [], [], 5⟩ 1
            [⟨("pkg"), ("x86_64"), ⟨("1.0"), ("2"), 0⟩, ⟨("ck-new")⟩, ("sum")⟩]).db 1
          [⟨("pkg"), ("x86_64"), ⟨("1.0"), ("2"), 0⟩, ⟨("ck-new")⟩, ("sum")⟩]).newRpms = 0 ∧
        (InsertForRepository 1 noFail
            (InsertForRepository 1 noFail ⟨[], [⟨1, ("u1"), true⟩], [], [], 5⟩ 1
              [⟨("pkg"), ("x86_64"), ⟨("1.0"), ("2"), 0⟩, ⟨("ck-new")⟩, ("sum")⟩]).db 1
            [⟨("pkg"), ("x86_64"), ⟨("1.0"), ("2"), 0⟩, ⟨("ck-new")⟩, ("sum")⟩]).db.repositoriesRpms =
          (InsertForRepository 1 noFail ⟨[], [⟨1, ("u1"), true⟩], [], [], 5⟩ 1
            [⟨("pkg"), ("x86_64"), ⟨("1.0"), ("2"), 0⟩, ⟨("ck-new")⟩, ("sum")⟩]).db.repositoriesRpms) :=
  ⟨by decide,
    InsertForRepository_idempotent 1 ⟨[], [⟨1, ("u1"), true⟩], [], [], 5⟩ 1
      [⟨("pkg"), ("x86_64"), ⟨("1.0"), ("2"), 0⟩, ⟨("ck-new")⟩, ("sum")⟩] (by decide)⟩
